import Mathlib

/-!
Verification of `csv_tool.py` (encoding-detection + chunked CSV split engine).

Shallow embedding of the core of `src/csv_tool.py`:

* `detect_encoding`   — lines 15–25 (candidate list probe, `gbk` fallback);
* `countLines`        — line 53, `sum(1 for _ in f)` over text-mode lines;
* `parseCsv`          — Python `csv.reader` (default dialect, `\n` newlines):
                        quoted fields, doubled quotes, embedded newlines;
* `encodeField` / `writeRow` — Python `csv.writer` (QUOTE_MINIMAL, `\r\n`);
* `chunkSizeOf`       — line 66, `math.ceil(data_rows / num_parts)`;
* `splitLoop` / `process_splitting` — lines 71–97 (islice chunking loop);
* `split_csv_logic`   — lines 28–111, as a pure function of an environment
                        `Env` abstracting the filesystem / decoder outcomes.

Log messages are modelled by the inductive `Event`; the level of each event
mirrors the colour classification of `append_log` (❌ error, ⚠️ warning,
🎉 success, otherwise info).  The busy flag (`progress_callback`) is the
list of boolean calls made during one run.
-/

/-- The fixed candidate list of line 17 of the source. -/
def encodingsToTry : List String := ["utf-8-sig", "gbk", "gb2312", "utf-8", "cp936", "big5"]

/-- Function `detect_encoding` (source lines 15–25).  The filesystem interaction
"open under this encoding and read 2048 chars without `UnicodeDecodeError`"
is abstracted into the boolean probe `decodes`.  The first candidate that
decodes is returned; if none does, the fallback `"gbk"` of line 25. -/
def detect_encoding (decodes : String → Bool) : String :=
  match encodingsToTry.find? decodes with
  | some e => e
  | none => "gbk"

/-- Number of lines Python's text-mode iteration yields on this character
stream (source line 53, `sum(1 for _ in f)`): one line per `'\n'`, plus a
final unterminated line when the text is nonempty and does not end in
`'\n'`.  (We only model texts whose newlines are `'\n'`, so the universal
newline translation of the `open` on line 52 is the identity.) -/
def countLines (l : List Char) : Nat :=
  if l = [] then 0 else l.count '\n' + (if l.getLast? = some '\n' then 0 else 1)

/-- Parser states of Python's `_csv` reader (default dialect, non-strict),
restricted to `'\n'` record terminators. -/
inductive CsvState
  | startRecord
  | startField
  | inField
  | inQuoted
  | quoteInQuoted
deriving DecidableEq, Repr

/-- One-pass CSV parse, mirroring the CPython `_csv.c` state machine for the
default dialect (delimiter `,`, quotechar `"`, doublequote).  `field` is the
current field accumulator, `rec` the fields of the current record. -/
def parseCsvAux : List Char → CsvState → List Char → List String → List (List String)
  | [], st, field, rec =>
    match st with
    | .startRecord => []
    | _ => [rec ++ [String.mk field]]
  | c :: cs, .startRecord, _, _ =>
    if c = '\n' then [] :: parseCsvAux cs .startRecord [] []
    else if c = '"' then parseCsvAux cs .inQuoted [] []
    else if c = ',' then parseCsvAux cs .startField [] [""]
    else parseCsvAux cs .inField [c] []
  | c :: cs, .startField, _, rec =>
    if c = '\n' then (rec ++ [""]) :: parseCsvAux cs .startRecord [] []
    else if c = '"' then parseCsvAux cs .inQuoted [] rec
    else if c = ',' then parseCsvAux cs .startField [] (rec ++ [""])
    else parseCsvAux cs .inField [c] rec
  | c :: cs, .inField, field, rec =>
    if c = '\n' then (rec ++ [String.mk field]) :: parseCsvAux cs .startRecord [] []
    else if c = ',' then parseCsvAux cs .startField [] (rec ++ [String.mk field])
    else parseCsvAux cs .inField (field ++ [c]) rec
  | c :: cs, .inQuoted, field, rec =>
    if c = '"' then parseCsvAux cs .quoteInQuoted field rec
    else parseCsvAux cs .inQuoted (field ++ [c]) rec
  | c :: cs, .quoteInQuoted, field, rec =>
    if c = '"' then parseCsvAux cs .inQuoted (field ++ ['"']) rec
    else if c = ',' then parseCsvAux cs .startField [] (rec ++ [String.mk field])
    else if c = '\n' then (rec ++ [String.mk field]) :: parseCsvAux cs .startRecord [] []
    else parseCsvAux cs .inField (field ++ [c]) rec

/-- The records `csv.reader` yields on this text (source line 73). -/
def parseCsv (s : String) : List (List String) :=
  parseCsvAux s.data .startRecord [] []

/-- Python `csv.writer` QUOTE_MINIMAL test: a field is quoted iff it
contains the delimiter, the quote char, or a line-terminator character. -/
def needsQuote (f : String) : Bool :=
  f.data.any fun c => c = ',' || c = '"' || c = '\n' || c = '\r'

/-- One serialized field, as `csv.writer` emits it (doubled quotes). -/
def encodeField (f : String) : String :=
  if needsQuote f then
    "\"" ++ String.join (f.data.map fun c => if c = '"' then "\"\"" else String.mk [c]) ++ "\""
  else f

/-- The text of one serialized row without the terminator.  CPython's
writer quotes a record that is exactly one empty field (a `writerow` of a
singleton empty string emits `""`, keeping it distinct from an empty line);
every other field follows the QUOTE_MINIMAL rule of `encodeField`. -/
def rowText (r : List String) : String :=
  if r = [""] then "\"\"" else String.intercalate "," (r.map encodeField)

/-- One row as `csv.writer.writerow` emits it (default lineterminator `\r\n`). -/
def writeRow (r : List String) : String :=
  rowText r ++ "\r\n"

/-- Chunk size `math.ceil(data_rows / num_parts)` (source line 66), for
positive integers expressed on ℕ as `(d + n - 1) / n`. -/
def chunkSizeOf (dataRows numParts : Nat) : Nat :=
  (dataRows + numParts - 1) / numParts

/-- The output name of part `i` (0-based loop index; source line 87 uses
`i + 1`): `f"{base_name}_part_{i + 1}.csv"`. -/
def partName (base : String) (i : Nat) : String :=
  base ++ "_part_" ++ toString (i + 1) ++ ".csv"

/-- One completed output-file write (source lines 90–94): the part's name
and the rows written into it — the replayed header and the body chunk. -/
structure WriteOp where
  name : String
  header : List String
  body : List (List String)
deriving DecidableEq, Repr, Inhabited

/-- The byte-level (decoded-text-level) content of the written file:
`writerow(header)` then `writerows(chunk)` (source lines 92–94). -/
def WriteOp.fileContent (w : WriteOp) : String :=
  writeRow w.header ++ String.join (w.body.map writeRow)

/-- Severity levels, as classified by `append_log` of the GUI layer. -/
inductive Level
  | info
  | warning
  | success
  | error
deriving DecidableEq, Repr

/-- The log messages `split_csv_logic` can emit, in source order:
`start` 🚀 l.35, `mkdir` 📂 l.40, `detecting` 🔍 l.45, `detected` ✅ l.47,
`counting` 📊 l.50, `countRetryWarn` ⚠️ l.56, `emptyDataErr` ❌ l.62,
`planInfo` 📋 l.67, `earlyFinish` 🏁 l.84, `partWritten` 💾 l.96,
`splitRetryWarn` ⚠️ l.103, `done` 🎉 l.106, `unexpectedErr` ❌ l.109. -/
inductive Event
  | start
  | mkdir
  | detecting
  | detected (enc : String)
  | counting
  | countRetryWarn
  | emptyDataErr
  | planInfo (dataRows : Int) (numParts chunkSize : Nat)
  | earlyFinish (produced : Nat)
  | partWritten (idx numParts : Nat) (name : String)
  | splitRetryWarn
  | done
  | unexpectedErr
deriving DecidableEq, Repr

/-- Level of each event: `append_log` colours ❌ as error, ⚠️ as warning,
🎉 as success, everything else as info. -/
def Event.level : Event → Level
  | .emptyDataErr => .error
  | .unexpectedErr => .error
  | .countRetryWarn => .warning
  | .splitRetryWarn => .warning
  | .done => .success
  | _ => .info

/-- The split loop of `process_splitting` (source lines 79–97).  `i` is the
0-based loop index, `rem` the remaining iterations (`num_parts - i`), `rows`
the rest of the row cursor after the header.  `islice(reader, chunk_size)`
followed by `next` pulls up to `chunkSize` rows: an empty pull raises
`StopIteration`, logs 🏁 with the count of files made so far and breaks;
otherwise the part file is written (header replayed, then the chunk) and
💾 is logged. -/
def splitLoop (base : String) (numParts chunkSize : Nat) (header : List String) :
    Nat → Nat → List (List String) → List WriteOp × List Event
  | _, 0, _ => ([], [])
  | i, rem + 1, rows =>
    if (rows.take chunkSize).isEmpty then
      ([], [Event.earlyFinish i])
    else
      ({ name := partName base i, header := header, body := rows.take chunkSize } ::
          (splitLoop base numParts chunkSize header (i + 1) rem (rows.drop chunkSize)).1,
        Event.partWritten (i + 1) numParts (partName base i) ::
          (splitLoop base numParts chunkSize header (i + 1) rem (rows.drop chunkSize)).2)

/-- Function `process_splitting` (source lines 71–97): read the header record
(`next(reader)`, returning on `StopIteration` for an empty file), then run
the split loop over the remaining records. -/
def process_splitting (base : String) (numParts chunkSize : Nat)
    (records : List (List String)) : List WriteOp × List Event :=
  match records with
  | [] => ([], [])
  | header :: rest => splitLoop base numParts chunkSize header 0 numParts rest

/-- Environment of one run of `split_csv_logic`: every interaction with the
filesystem / decoder is abstracted into an outcome field.
`countStrict` is the strict line-count pass of lines 52–53 (`.error ()` when
it raises), `countTolerant` the `errors='ignore'` pass of lines 57–58;
`splitStrict` the records the strict `process_splitting` call of line 101
would read (`.error ()` when it raises partway), `splitTolerant` those of
the tolerant call of line 104.  When a split pass raises partway, the
writes completed and events logged before the exception are the
`…Partial…` fields. -/
structure Env where
  basename : String
  outputFolderExists : Bool
  decodes : String → Bool
  detectRaises : Bool
  countStrict : Except Unit Nat
  countTolerant : Except Unit Nat
  splitStrict : Except Unit (List (List String))
  splitTolerant : Except Unit (List (List String))
  strictPartialWrites : List WriteOp
  strictPartialEvents : List Event
  tolerantPartialWrites : List WriteOp
  tolerantPartialEvents : List Event

/-- Observable outcome of one run: the log events in order, the sequence of
`progress_callback` calls in order, the sequence of part-file writes in
order, and whether `os.makedirs` ran (line 39). -/
structure RunResult where
  events : List Event
  busy : List Bool
  writes : List WriteOp
  createdDir : Bool
deriving DecidableEq, Repr

/-- Source lines 60–106: everything after the line count is known.
`data_rows = total_lines - 1`; the `data_rows <= 0` guard of line 61 logs ❌,
calls `progress_callback(False)` and returns (the `finally` of line 110 then
calls it again); otherwise the chunk size is computed and the split runs,
strict first, retried once tolerantly on an exception (lines 100–104), a
tolerant-pass exception escaping to the top-level handler of line 108. -/
def afterCount (env : Env) (numParts : Nat) (pre : List Event) (dirMade : Bool)
    (totalLines : Nat) : RunResult :=
  let dataRows : Int := (totalLines : Int) - 1
  if dataRows ≤ 0 then
    { events := pre ++ [Event.emptyDataErr], busy := [true, false, false],
      writes := [], createdDir := dirMade }
  else
    let chunk := chunkSizeOf (totalLines - 1) numParts
    let pre2 := pre ++ [Event.planInfo dataRows numParts chunk]
    match env.splitStrict with
    | .ok records =>
      let r := process_splitting env.basename numParts chunk records
      { events := pre2 ++ r.2 ++ [Event.done], busy := [true, false],
        writes := r.1, createdDir := dirMade }
    | .error _ =>
      let pre3 := pre2 ++ env.strictPartialEvents ++ [Event.splitRetryWarn]
      match env.splitTolerant with
      | .ok records =>
        let r := process_splitting env.basename numParts chunk records
        { events := pre3 ++ r.2 ++ [Event.done], busy := [true, false],
          writes := env.strictPartialWrites ++ r.1, createdDir := dirMade }
      | .error _ =>
        { events := pre3 ++ env.tolerantPartialEvents ++ [Event.unexpectedErr],
          busy := [true, false],
          writes := env.strictPartialWrites ++ env.tolerantPartialWrites,
          createdDir := dirMade }

/-- Function `split_csv_logic` (source lines 28–111) as a pure function of the
environment.  Events and callback invocations are collected in order:
🚀 and `progress_callback(True)` (lines 35–36), directory creation
(lines 38–40), encoding detection (lines 45–47, an `open` failure there
escaping to the top-level handler), line counting with its tolerant retry
(lines 50–58), then `afterCount`.  Every exceptional exit appends ❌ (line
109), and the `finally` of line 110 always appends the final
`progress_callback(False)`. -/
def split_csv_logic (env : Env) (numParts : Nat) : RunResult :=
  let dirMade := !env.outputFolderExists
  let pre : List Event :=
    [Event.start] ++ (if env.outputFolderExists then [] else [Event.mkdir])
      ++ [Event.detecting]
  if env.detectRaises then
    { events := pre ++ [Event.unexpectedErr], busy := [true, false],
      writes := [], createdDir := dirMade }
  else
    let enc := detect_encoding env.decodes
    let pre2 := pre ++ [Event.detected enc, Event.counting]
    match env.countStrict with
    | .ok n => afterCount env numParts pre2 dirMade n
    | .error _ =>
      match env.countTolerant with
      | .ok n => afterCount env numParts (pre2 ++ [Event.countRetryWarn]) dirMade n
      | .error _ =>
        { events := pre2 ++ [Event.countRetryWarn, Event.unexpectedErr],
          busy := [true, false], writes := [], createdDir := dirMade }

/-- The environment of a run in which every filesystem interaction
succeeds and both decode passes agree with the actual text: the strict line
count sees `countLines`, the strict CSV pass sees `parseCsv`. -/
def envOfText (base : String) (outExists : Bool) (decodes : String → Bool)
    (text : String) : Env :=
  { basename := base, outputFolderExists := outExists, decodes := decodes,
    detectRaises := false,
    countStrict := .ok (countLines text.data),
    countTolerant := .ok (countLines text.data),
    splitStrict := .ok (parseCsv text),
    splitTolerant := .ok (parseCsv text),
    strictPartialWrites := [], strictPartialEvents := [],
    tolerantPartialWrites := [], tolerantPartialEvents := [] }

/-- A run on a concrete text with no decode or I/O failures. -/
def runOk (base : String) (outExists : Bool) (decodes : String → Bool)
    (text : String) (numParts : Nat) : RunResult :=
  split_csv_logic (envOfText base outExists decodes text) numParts

/-- Number of error-level events of a run. -/
def errCount (evs : List Event) : Nat :=
  (evs.filter fun e => Event.level e = Level.error).length

/-- A probe that accepts every candidate encoding (a plain-UTF-8 file). -/
def decodesAll : String → Bool := fun _ => true

/-- Environment of a deep-bad-byte run: the strict line count (lines 52–53)
and the strict split pass (line 101) both raise, the tolerant count reads 3
lines, and the tolerant split pass (line 104) reads a header and two data
records; no part write completed before the strict split raise. -/
def envSplitRetry : Env :=
  { basename := "s", outputFolderExists := true, decodes := decodesAll,
    detectRaises := false, countStrict := Except.error (),
    countTolerant := Except.ok 3,
    splitStrict := Except.error (), splitTolerant := Except.ok [["h"], ["1"], ["2"]],
    strictPartialWrites := [], strictPartialEvents := [],
    tolerantPartialWrites := [], tolerantPartialEvents := [] }

/-- Environment of a run in which the `open` inside the detector raises
(e.g. the file disappeared), escaping to the top-level handler. -/
def envDetectFail : Env :=
  { basename := "s", outputFolderExists := true, decodes := decodesAll,
    detectRaises := true, countStrict := Except.ok 3, countTolerant := Except.ok 3,
    splitStrict := Except.ok [], splitTolerant := Except.ok [],
    strictPartialWrites := [], strictPartialEvents := [],
    tolerantPartialWrites := [], tolerantPartialEvents := [] }

/-- Environment of a run whose strict line count raises but whose tolerant
count (2 lines) and the split passes succeed: the decode exception is
recovered by the inner retry of lines 54–58, not by the top-level handler. -/
def envCountRecover : Env :=
  { basename := "s", outputFolderExists := true, decodes := decodesAll,
    detectRaises := false, countStrict := Except.error (), countTolerant := Except.ok 2,
    splitStrict := Except.ok [["h"], ["r"]], splitTolerant := Except.ok [["h"], ["r"]],
    strictPartialWrites := [], strictPartialEvents := [],
    tolerantPartialWrites := [], tolerantPartialEvents := [] }

example : parseCsv "\"a\nb\",c\n" = [["a\nb", "c"]] := by decide
example : countLines ("\"a\nb\",c\n".data) = 2 := by decide
example : parseCsv "h\n1\n2\n" = [["h"], ["1"], ["2"]] := by decide
example : chunkSizeOf 10 3 = 4 := by decide
example : writeRow ["a", "b"] = "a,b\r\n" := by decide

/-! Arithmetic facts about the chunk size of line 66. -/

theorem chunkSizeOf_pos (d n : Nat) (hd : 0 < d) (hn : 0 < n) : 0 < chunkSizeOf d n := by
  unfold chunkSizeOf
  rw [Nat.lt_iff_add_one_le, Nat.le_div_iff_mul_le hn]
  omega

theorem chunkSizeOf_mul_ge (d n : Nat) (hn : 0 < n) : d ≤ chunkSizeOf d n * n := by
  unfold chunkSizeOf
  rw [mul_comm]
  have key : n * ((d + n - 1) / n) + (d + n - 1) % n = d + n - 1 := Nat.div_add_mod _ _
  have hm : (d + n - 1) % n < n := Nat.mod_lt _ hn
  generalize hM : (d + n - 1) % n = M at key hm
  generalize hK : n * ((d + n - 1) / n) = K at key ⊢
  omega

theorem chunkSizeOf_pred_mul_lt (d n : Nat) (hd : 0 < d) (hn : 0 < n) :
    (chunkSizeOf d n - 1) * n < d := by
  unfold chunkSizeOf
  rw [Nat.sub_mul, one_mul, mul_comm]
  have key : n * ((d + n - 1) / n) + (d + n - 1) % n = d + n - 1 := Nat.div_add_mod _ _
  have hm : (d + n - 1) % n < n := Nat.mod_lt _ hn
  generalize hM : (d + n - 1) % n = M at key hm
  generalize hK : n * ((d + n - 1) / n) = K at key ⊢
  omega

theorem chunkSizeOf_eq_ceil (d n : Nat) (hd : 0 < d) (hn : 0 < n) :
    (chunkSizeOf d n : Int) = ⌈(d : ℚ) / (n : ℚ)⌉ := by
  have hn0 : (0 : ℚ) < (n : ℚ) := by exact_mod_cast hn
  have hpos := chunkSizeOf_pos d n hd hn
  symm
  rw [Int.ceil_eq_iff]
  constructor
  · rw [lt_div_iff₀ hn0]
    have hnat : chunkSizeOf d n * n < d + n := by
      have h1 := chunkSizeOf_pred_mul_lt d n hd hn
      obtain ⟨c, hc⟩ : ∃ c, chunkSizeOf d n = c + 1 :=
        ⟨chunkSizeOf d n - 1, (Nat.succ_pred_eq_of_pos hpos).symm⟩
      rw [hc] at h1 ⊢
      simp only [Nat.add_sub_cancel, Nat.succ_mul] at h1 ⊢
      omega
    have hq : (chunkSizeOf d n : ℚ) * (n : ℚ) < (d : ℚ) + (n : ℚ) := by exact_mod_cast hnat
    push_cast
    have hring : ((chunkSizeOf d n : ℚ) - 1) * (n : ℚ)
        = (chunkSizeOf d n : ℚ) * (n : ℚ) - (n : ℚ) := by ring
    rw [hring]
    linarith
  · rw [div_le_iff₀ hn0]
    push_cast
    exact_mod_cast chunkSizeOf_mul_ge d n hn

/-! Structure of the split loop. -/

theorem splitLoop_get (base : String) (np cs : Nat) (hdr : List String) :
    ∀ rem i rows j (hj : j < (splitLoop base np cs hdr i rem rows).1.length),
      (splitLoop base np cs hdr i rem rows).1.get ⟨j, hj⟩ =
        { name := partName base (i + j), header := hdr,
          body := (rows.drop (j * cs)).take cs } := by
  intro rem
  induction rem with
  | zero => intro i rows j hj; simp [splitLoop] at hj
  | succ rem ih =>
    intro i rows j hj
    by_cases hemp : (rows.take cs).isEmpty
    · simp [splitLoop, hemp] at hj
    · cases j with
      | zero =>
        simp [splitLoop, hemp]
      | succ j =>
        have hj' : j < (splitLoop base np cs hdr (i + 1) rem (rows.drop cs)).1.length := by
          simp [splitLoop, hemp] at hj
          omega
        have hrec := ih (i + 1) (rows.drop cs) j hj'
        have hstep : (splitLoop base np cs hdr i (rem + 1) rows).1.get ⟨j + 1, hj⟩ =
            (splitLoop base np cs hdr (i + 1) rem (rows.drop cs)).1.get ⟨j, hj'⟩ := by
          simp [splitLoop, hemp]
        rw [hstep, hrec]
        have h1 : i + 1 + j = i + (j + 1) := by omega
        have h2 : (rows.drop cs).drop (j * cs) = rows.drop ((j + 1) * cs) := by
          rw [List.drop_drop]
          congr 1
          ring
        rw [h1, h2]

theorem splitLoop_flatten (base : String) (np cs : Nat) (hdr : List String) (hcs : 0 < cs) :
    ∀ rem i rows, rows.length ≤ rem * cs →
      ((splitLoop base np cs hdr i rem rows).1.map WriteOp.body).flatten = rows := by
  intro rem
  induction rem with
  | zero =>
    intro i rows hlen
    have : rows = [] := by
      cases rows with
      | nil => rfl
      | cons r rs => simp at hlen
    subst this
    simp [splitLoop]
  | succ rem ih =>
    intro i rows hlen
    by_cases hemp : (rows.take cs).isEmpty
    · have : rows = [] := by
        cases rows with
        | nil => rfl
        | cons r rs =>
          obtain ⟨c, rfl⟩ : ∃ c, cs = c + 1 := ⟨cs - 1, by omega⟩
          simp [List.take_succ_cons] at hemp
      subst this
      simp [splitLoop]
    · have hlen' : (rows.drop cs).length ≤ rem * cs := by
        have h1 : rows.length ≤ rem * cs + cs := by
          have : (rem + 1) * cs = rem * cs + cs := by ring
          omega
        simp [List.length_drop]
        omega
      have hrec := ih (i + 1) (rows.drop cs) hlen'
      simp only [splitLoop, hemp, if_neg, Bool.false_eq_true, not_false_iff, ite_false,
        List.map_cons, List.flatten_cons]
      rw [hrec, List.take_append_drop]

theorem splitLoop_early (base : String) (np cs : Nat) (hdr : List String) :
    ∀ rem i rows, 0 < rem → rows.length ≤ (rem - 1) * cs →
      (splitLoop base np cs hdr i rem rows).1.length < rem ∧
      Event.earlyFinish (i + (splitLoop base np cs hdr i rem rows).1.length) ∈
        (splitLoop base np cs hdr i rem rows).2 := by
  intro rem
  induction rem with
  | zero => intro i rows h0; omega
  | succ rem ih =>
    intro i rows _ hlen
    by_cases hemp : (rows.take cs).isEmpty
    · constructor
      · simp [splitLoop, hemp]
      · simp [splitLoop, hemp]
    · have hne : rows ≠ [] := by
        intro h; subst h; simp at hemp
      have hrows1 : 0 < rows.length := List.length_pos.mpr hne
      have hrem1 : 0 < rem := by
        rcases Nat.eq_zero_or_pos rem with h | h
        · subst h
          simp only [Nat.add_sub_cancel, Nat.zero_mul] at hlen
          omega
        · exact h
      have hlen' : (rows.drop cs).length ≤ (rem - 1) * cs := by
        have hexp : rem * cs = (rem - 1) * cs + cs := by
          obtain ⟨r, rfl⟩ : ∃ r, rem = r + 1 := ⟨rem - 1, by omega⟩
          simp [Nat.add_mul]
        simp only [Nat.add_sub_cancel] at hlen
        rw [List.length_drop]
        generalize hA : (rem - 1) * cs = A at hexp ⊢
        generalize hB : rem * cs = B at hexp hlen
        omega
      have hrec := ih (i + 1) (rows.drop cs) hrem1 hlen'
      constructor
      · have : (splitLoop base np cs hdr i (rem + 1) rows).1.length =
            (splitLoop base np cs hdr (i + 1) rem (rows.drop cs)).1.length + 1 := by
          simp [splitLoop, hemp]
        omega
      · have hlen2 : (splitLoop base np cs hdr i (rem + 1) rows).1.length =
            (splitLoop base np cs hdr (i + 1) rem (rows.drop cs)).1.length + 1 := by
          simp [splitLoop, hemp]
        rw [hlen2]
        have hmem := hrec.2
        have harith : i + ((splitLoop base np cs hdr (i + 1) rem (rows.drop cs)).1.length + 1)
            = i + 1 + (splitLoop base np cs hdr (i + 1) rem (rows.drop cs)).1.length := by omega
        rw [harith]
        simp only [splitLoop, hemp, Bool.false_eq_true, not_false_iff, ite_false]
        exact List.mem_cons_of_mem _ hmem

theorem splitLoop_events_info (base : String) (np cs : Nat) (hdr : List String) :
    ∀ rem i rows e, e ∈ (splitLoop base np cs hdr i rem rows).2 → Event.level e = Level.info := by
  intro rem
  induction rem with
  | zero => intro i rows e he; simp [splitLoop] at he
  | succ rem ih =>
    intro i rows e he
    by_cases hemp : (rows.take cs).isEmpty
    · simp [splitLoop, hemp] at he
      subst he; rfl
    · simp only [splitLoop, hemp, Bool.false_eq_true, not_false_iff, ite_false,
        List.mem_cons] at he
      rcases he with rfl | he
      · rfl
      · exact ih (i + 1) (rows.drop cs) e he

/-! Nonemptiness of the parse of a nonempty text: `next(reader)` on line 75
succeeds whenever the source has at least one character. -/

theorem parseCsvAux_ne_nil_of_ne_start :
    ∀ (cs : List Char) (st : CsvState) (field : List Char) (rec : List String),
      st ≠ CsvState.startRecord → parseCsvAux cs st field rec ≠ [] := by
  intro cs
  induction cs with
  | nil =>
    intro st field rec hst
    cases st <;> simp [parseCsvAux] at hst ⊢
  | cons c cs ih =>
    intro st field rec hst
    cases st with
    | startRecord => exact absurd rfl hst
    | startField =>
      simp only [parseCsvAux]
      split
      · simp
      · split
        · exact ih _ _ _ (by simp)
        · split
          · exact ih _ _ _ (by simp)
          · exact ih _ _ _ (by simp)
    | inField =>
      simp only [parseCsvAux]
      split
      · simp
      · split
        · exact ih _ _ _ (by simp)
        · exact ih _ _ _ (by simp)
    | inQuoted =>
      simp only [parseCsvAux]
      split
      · exact ih _ _ _ (by simp)
      · exact ih _ _ _ (by simp)
    | quoteInQuoted =>
      simp only [parseCsvAux]
      split
      · exact ih _ _ _ (by simp)
      · split
        · exact ih _ _ _ (by simp)
        · split
          · simp
          · exact ih _ _ _ (by simp)

theorem parseCsv_ne_nil (s : String) (h : s.data ≠ []) : parseCsv s ≠ [] := by
  unfold parseCsv
  cases hd : s.data with
  | nil => exact absurd hd h
  | cons c cs =>
    simp only [parseCsvAux]
    split
    · simp
    · split
      · exact parseCsvAux_ne_nil_of_ne_start _ _ _ _ (by simp)
      · split
        · exact parseCsvAux_ne_nil_of_ne_start _ _ _ _ (by simp)
        · exact parseCsvAux_ne_nil_of_ne_start _ _ _ _ (by simp)

theorem countLines_pos_ne_nil (l : List Char) (h : 0 < countLines l) : l ≠ [] := by
  intro hnil
  subst hnil
  simp [countLines] at h

/-! Characterizations of whole runs on each control path. -/

theorem runOk_eq (base : String) (outE : Bool) (dec : String → Bool) (text : String)
    (np : Nat) (h : 1 < countLines text.data) :
    runOk base outE dec text np =
      { events := [Event.start] ++ (if outE then [] else [Event.mkdir]) ++
          [Event.detecting, Event.detected (detect_encoding dec), Event.counting,
            Event.planInfo ((countLines text.data : Int) - 1) np
              (chunkSizeOf (countLines text.data - 1) np)] ++
          (process_splitting base np (chunkSizeOf (countLines text.data - 1) np)
            (parseCsv text)).2 ++ [Event.done],
        busy := [true, false],
        writes := (process_splitting base np (chunkSizeOf (countLines text.data - 1) np)
          (parseCsv text)).1,
        createdDir := !outE } := by
  unfold runOk split_csv_logic envOfText afterCount
  simp only [Bool.false_eq_true, if_false]
  rw [if_neg (by omega : ¬ ((countLines text.data : Int) - 1 ≤ 0))]
  simp [List.append_assoc]

theorem run_detect_eq (env : Env) (np : Nat) (hdet : env.detectRaises = true) :
    split_csv_logic env np =
      { events := [Event.start] ++ (if env.outputFolderExists then [] else [Event.mkdir]) ++
          [Event.detecting, Event.unexpectedErr],
        busy := [true, false], writes := [], createdDir := !env.outputFolderExists } := by
  unfold split_csv_logic
  rw [hdet]
  simp [List.append_assoc]

theorem run_countFail_eq (env : Env) (np : Nat) (hdet : env.detectRaises = false)
    (hc : env.countStrict = Except.error ()) (hct : env.countTolerant = Except.error ()) :
    split_csv_logic env np =
      { events := [Event.start] ++ (if env.outputFolderExists then [] else [Event.mkdir]) ++
          [Event.detecting, Event.detected (detect_encoding env.decodes), Event.counting,
            Event.countRetryWarn, Event.unexpectedErr],
        busy := [true, false], writes := [], createdDir := !env.outputFolderExists } := by
  unfold split_csv_logic
  rw [hdet, hc, hct]
  simp [List.append_assoc]

theorem run_guard_strict_eq (env : Env) (np n : Nat) (hdet : env.detectRaises = false)
    (hc : env.countStrict = Except.ok n) (hn : n ≤ 1) :
    split_csv_logic env np =
      { events := [Event.start] ++ (if env.outputFolderExists then [] else [Event.mkdir]) ++
          [Event.detecting, Event.detected (detect_encoding env.decodes), Event.counting,
            Event.emptyDataErr],
        busy := [true, false, false], writes := [], createdDir := !env.outputFolderExists } := by
  unfold split_csv_logic afterCount
  rw [hdet, hc]
  simp only [Bool.false_eq_true, if_false]
  rw [if_pos (by omega : ((n : Int) - 1 ≤ 0))]
  simp [List.append_assoc]

theorem run_guard_tolerant_eq (env : Env) (np n : Nat) (hdet : env.detectRaises = false)
    (hc : env.countStrict = Except.error ()) (hct : env.countTolerant = Except.ok n)
    (hn : n ≤ 1) :
    split_csv_logic env np =
      { events := [Event.start] ++ (if env.outputFolderExists then [] else [Event.mkdir]) ++
          [Event.detecting, Event.detected (detect_encoding env.decodes), Event.counting,
            Event.countRetryWarn, Event.emptyDataErr],
        busy := [true, false, false], writes := [], createdDir := !env.outputFolderExists } := by
  unfold split_csv_logic afterCount
  rw [hdet, hc, hct]
  simp only [Bool.false_eq_true, if_false]
  rw [if_pos (by omega : ((n : Int) - 1 ≤ 0))]
  simp [List.append_assoc]

theorem run_strictSplit_eq (env : Env) (np n : Nat) (recs : List (List String))
    (hdet : env.detectRaises = false) (hc : env.countStrict = Except.ok n) (hn : 1 < n)
    (hs : env.splitStrict = Except.ok recs) :
    split_csv_logic env np =
      { events := [Event.start] ++ (if env.outputFolderExists then [] else [Event.mkdir]) ++
          [Event.detecting, Event.detected (detect_encoding env.decodes), Event.counting,
            Event.planInfo ((n : Int) - 1) np (chunkSizeOf (n - 1) np)] ++
          (process_splitting env.basename np (chunkSizeOf (n - 1) np) recs).2 ++
          [Event.done],
        busy := [true, false],
        writes := (process_splitting env.basename np (chunkSizeOf (n - 1) np) recs).1,
        createdDir := !env.outputFolderExists } := by
  unfold split_csv_logic afterCount
  rw [hdet, hc]
  simp only [Bool.false_eq_true, if_false]
  rw [if_neg (by omega : ¬ ((n : Int) - 1 ≤ 0)), hs]
  simp [List.append_assoc]

theorem run_splitRetry_ok_eq (env : Env) (np n : Nat) (recs : List (List String))
    (hdet : env.detectRaises = false) (hc : env.countStrict = Except.ok n) (hn : 1 < n)
    (hs : env.splitStrict = Except.error ()) (ht : env.splitTolerant = Except.ok recs) :
    split_csv_logic env np =
      { events := [Event.start] ++ (if env.outputFolderExists then [] else [Event.mkdir]) ++
          [Event.detecting, Event.detected (detect_encoding env.decodes), Event.counting,
            Event.planInfo ((n : Int) - 1) np (chunkSizeOf (n - 1) np)] ++
          env.strictPartialEvents ++ [Event.splitRetryWarn] ++
          (process_splitting env.basename np (chunkSizeOf (n - 1) np) recs).2 ++
          [Event.done],
        busy := [true, false],
        writes := env.strictPartialWrites ++
          (process_splitting env.basename np (chunkSizeOf (n - 1) np) recs).1,
        createdDir := !env.outputFolderExists } := by
  unfold split_csv_logic afterCount
  rw [hdet, hc]
  simp only [Bool.false_eq_true, if_false]
  rw [if_neg (by omega : ¬ ((n : Int) - 1 ≤ 0)), hs, ht]
  simp [List.append_assoc]

theorem run_splitRetry_err_eq (env : Env) (np n : Nat)
    (hdet : env.detectRaises = false) (hc : env.countStrict = Except.ok n) (hn : 1 < n)
    (hs : env.splitStrict = Except.error ()) (ht : env.splitTolerant = Except.error ()) :
    split_csv_logic env np =
      { events := [Event.start] ++ (if env.outputFolderExists then [] else [Event.mkdir]) ++
          [Event.detecting, Event.detected (detect_encoding env.decodes), Event.counting,
            Event.planInfo ((n : Int) - 1) np (chunkSizeOf (n - 1) np)] ++
          env.strictPartialEvents ++ [Event.splitRetryWarn] ++
          env.tolerantPartialEvents ++ [Event.unexpectedErr],
        busy := [true, false],
        writes := env.strictPartialWrites ++ env.tolerantPartialWrites,
        createdDir := !env.outputFolderExists } := by
  unfold split_csv_logic afterCount
  rw [hdet, hc]
  simp only [Bool.false_eq_true, if_false]
  rw [if_neg (by omega : ¬ ((n : Int) - 1 ≤ 0)), hs, ht]
  simp [List.append_assoc]

/-! Counting error- and warning-level events. -/

theorem errCount_append (a b : List Event) : errCount (a ++ b) = errCount a + errCount b := by
  unfold errCount
  rw [List.filter_append, List.length_append]

theorem count_eq_zero_of_info (l : List Event) (h : ∀ e ∈ l, Event.level e = Level.info)
    (a : Event) (ha : Event.level a ≠ Level.info) : l.count a = 0 := by
  rw [List.count_eq_zero]
  intro hmem
  exact ha (h a hmem)

theorem errCount_of_info (l : List Event) (h : ∀ e ∈ l, Event.level e = Level.info) :
    errCount l = 0 := by
  unfold errCount
  simp only [List.length_eq_zero, List.filter_eq_nil_iff]
  intro e he
  simp [h e he]

theorem process_splitting_events_info (base : String) (np cs : Nat)
    (recs : List (List String)) :
    ∀ e ∈ (process_splitting base np cs recs).2, Event.level e = Level.info := by
  cases recs with
  | nil => simp [process_splitting]
  | cons hd t =>
    exact fun e he => splitLoop_events_info base np cs hd np 0 t e he

theorem afterCount_events_prefix (env : Env) (np : Nat) (pre : List Event) (dm : Bool)
    (n : Nat) : ∃ suf, (afterCount env np pre dm n).events = pre ++ suf := by
  unfold afterCount
  by_cases hg : ((n : Int) - 1 ≤ 0)
  · rw [if_pos hg]
    exact ⟨_, rfl⟩
  · rw [if_neg hg]
    cases hs : env.splitStrict with
    | ok recs =>
      exact ⟨[Event.planInfo ((n : Int) - 1) np (chunkSizeOf (n - 1) np)] ++
        (process_splitting env.basename np (chunkSizeOf (n - 1) np) recs).2 ++
        [Event.done], by simp [List.append_assoc]⟩
    | error u =>
      cases ht : env.splitTolerant with
      | ok recs =>
        exact ⟨[Event.planInfo ((n : Int) - 1) np (chunkSizeOf (n - 1) np)] ++
          env.strictPartialEvents ++ [Event.splitRetryWarn] ++
          (process_splitting env.basename np (chunkSizeOf (n - 1) np) recs).2 ++
          [Event.done], by simp [List.append_assoc]⟩
      | error v =>
        exact ⟨[Event.planInfo ((n : Int) - 1) np (chunkSizeOf (n - 1) np)] ++
          env.strictPartialEvents ++ [Event.splitRetryWarn] ++
          env.tolerantPartialEvents ++ [Event.unexpectedErr], by simp [List.append_assoc]⟩

theorem afterCount_count_countRetryWarn (env : Env) (np : Nat) (pre : List Event)
    (dm : Bool) (n : Nat)
    (hwfs : ∀ e ∈ env.strictPartialEvents, Event.level e = Level.info)
    (hwft : ∀ e ∈ env.tolerantPartialEvents, Event.level e = Level.info) :
    ((afterCount env np pre dm n).events).count Event.countRetryWarn
      = pre.count Event.countRetryWarn := by
  have hps : ∀ recs, ((process_splitting env.basename np (chunkSizeOf (n - 1) np)
      recs).2).count Event.countRetryWarn = 0 := fun recs =>
    count_eq_zero_of_info _ (process_splitting_events_info _ _ _ recs) _ (by simp [Event.level])
  have hs0 : (env.strictPartialEvents).count Event.countRetryWarn = 0 :=
    count_eq_zero_of_info _ hwfs _ (by simp [Event.level])
  have ht0 : (env.tolerantPartialEvents).count Event.countRetryWarn = 0 :=
    count_eq_zero_of_info _ hwft _ (by simp [Event.level])
  unfold afterCount
  by_cases hg : ((n : Int) - 1 ≤ 0)
  · rw [if_pos hg]
    simp [List.count_append]
  · rw [if_neg hg]
    cases hs : env.splitStrict with
    | ok recs => simp [List.count_append, hps recs]
    | error u =>
      cases ht : env.splitTolerant with
      | ok recs => simp [List.count_append, hps recs, hs0, ht0]
      | error v => simp [List.count_append, hs0, ht0]

/-! Reductions of a run to `afterCount`, and `afterCount` facts shared by
the busy-flag, retry and error-boundary claims. -/

theorem run_count_strict_eq (env : Env) (np n : Nat) (hdet : env.detectRaises = false)
    (hc : env.countStrict = Except.ok n) :
    split_csv_logic env np =
      afterCount env np
        ([Event.start] ++ (if env.outputFolderExists then [] else [Event.mkdir]) ++
          [Event.detecting, Event.detected (detect_encoding env.decodes), Event.counting])
        (!env.outputFolderExists) n := by
  unfold split_csv_logic
  rw [hdet, hc]
  simp [List.append_assoc]

theorem run_count_tolerant_eq (env : Env) (np n : Nat) (hdet : env.detectRaises = false)
    (hc : env.countStrict = Except.error ()) (hct : env.countTolerant = Except.ok n) :
    split_csv_logic env np =
      afterCount env np
        ([Event.start] ++ (if env.outputFolderExists then [] else [Event.mkdir]) ++
          [Event.detecting, Event.detected (detect_encoding env.decodes), Event.counting,
            Event.countRetryWarn])
        (!env.outputFolderExists) n := by
  unfold split_csv_logic
  rw [hdet, hc, hct]
  simp [List.append_assoc]

theorem afterCount_busy_guard (env : Env) (np : Nat) (pre : List Event) (dm : Bool)
    (n : Nat) (hn : n ≤ 1) : (afterCount env np pre dm n).busy = [true, false, false] := by
  unfold afterCount
  rw [if_pos (by omega : ((n : Int) - 1 ≤ 0))]

theorem afterCount_busy_main (env : Env) (np : Nat) (pre : List Event) (dm : Bool)
    (n : Nat) (hn : 1 < n) : (afterCount env np pre dm n).busy = [true, false] := by
  unfold afterCount
  rw [if_neg (by omega : ¬ ((n : Int) - 1 ≤ 0))]
  cases hs : env.splitStrict with
  | ok recs => rfl
  | error u =>
    cases ht : env.splitTolerant with
    | ok recs => rfl
    | error v => rfl

theorem afterCount_splitRetry_ok (env : Env) (np : Nat) (pre : List Event) (dm : Bool)
    (n : Nat) (recs : List (List String)) (hn : 1 < n)
    (hs : env.splitStrict = Except.error ()) (ht : env.splitTolerant = Except.ok recs) :
    afterCount env np pre dm n =
      { events := pre ++ [Event.planInfo ((n : Int) - 1) np (chunkSizeOf (n - 1) np)] ++
          env.strictPartialEvents ++ [Event.splitRetryWarn] ++
          (process_splitting env.basename np (chunkSizeOf (n - 1) np) recs).2 ++
          [Event.done],
        busy := [true, false],
        writes := env.strictPartialWrites ++
          (process_splitting env.basename np (chunkSizeOf (n - 1) np) recs).1,
        createdDir := dm } := by
  unfold afterCount
  rw [if_neg (by omega : ¬ ((n : Int) - 1 ≤ 0)), hs, ht]

theorem afterCount_splitRetry_err (env : Env) (np : Nat) (pre : List Event) (dm : Bool)
    (n : Nat) (hn : 1 < n)
    (hs : env.splitStrict = Except.error ()) (ht : env.splitTolerant = Except.error ()) :
    afterCount env np pre dm n =
      { events := pre ++ [Event.planInfo ((n : Int) - 1) np (chunkSizeOf (n - 1) np)] ++
          env.strictPartialEvents ++ [Event.splitRetryWarn] ++
          env.tolerantPartialEvents ++ [Event.unexpectedErr],
        busy := [true, false],
        writes := env.strictPartialWrites ++ env.tolerantPartialWrites,
        createdDir := dm } := by
  unfold afterCount
  rw [if_neg (by omega : ¬ ((n : Int) - 1 ≤ 0)), hs, ht]

theorem process_splitting_names (base : String) (np cs : Nat) (recs : List (List String)) :
    ∀ j (hj : j < (process_splitting base np cs recs).1.length),
      ((process_splitting base np cs recs).1.get ⟨j, hj⟩).name = partName base j := by
  cases recs with
  | nil =>
    intro j hj
    simp [process_splitting] at hj
  | cons hdr rest =>
    intro j hj
    show ((splitLoop base np cs hdr 0 np rest).1.get ⟨j, hj⟩).name = partName base j
    rw [splitLoop_get base np cs hdr np 0 rest j hj]
    simp

theorem splitRetry_conclusions (env : Env) (np : Nat) (pre : List Event) (dm : Bool)
    (n : Nat) (hn : 1 < n) (hs : env.splitStrict = Except.error ())
    (hwfs : ∀ e ∈ env.strictPartialEvents, Event.level e = Level.info)
    (hwft : ∀ e ∈ env.tolerantPartialEvents, Event.level e = Level.info)
    (hpre : pre.count Event.splitRetryWarn = 0) :
    (afterCount env np pre dm n).events.count Event.splitRetryWarn = 1 ∧
    (∀ recs, env.splitTolerant = Except.ok recs →
      (afterCount env np pre dm n).writes = env.strictPartialWrites ++
        (process_splitting env.basename np (chunkSizeOf (n - 1) np) recs).1) := by
  have hsp0 : (env.strictPartialEvents).count Event.splitRetryWarn = 0 :=
    count_eq_zero_of_info _ hwfs _ (by simp [Event.level])
  have htp0 : (env.tolerantPartialEvents).count Event.splitRetryWarn = 0 :=
    count_eq_zero_of_info _ hwft _ (by simp [Event.level])
  cases ht : env.splitTolerant with
  | ok recs =>
    rw [afterCount_splitRetry_ok env np pre dm n recs hn hs ht]
    constructor
    · have hps0 : ((process_splitting env.basename np (chunkSizeOf (n - 1) np)
          recs).2).count Event.splitRetryWarn = 0 :=
        count_eq_zero_of_info _ (process_splitting_events_info _ _ _ recs) _
          (by simp [Event.level])
      simp [List.count_append, hpre, hsp0, hps0, List.count_cons, List.count_nil]
    · intro recs2 ht2
      have hrr : recs2 = recs := by
        injection ht2 with h
        exact h.symm
      rw [hrr]
  | error u =>
    cases u
    rw [afterCount_splitRetry_err env np pre dm n hn hs ht]
    constructor
    · simp [List.count_append, hpre, hsp0, htp0, List.count_cons, List.count_nil]
    · intro recs2 ht2
      exact Except.noConfusion ht2

theorem busy_dichotomy (env : Env) (np : Nat) :
    ((split_csv_logic env np).busy = [true, false, false] ∧
      (env.detectRaises = false ∧ ∃ n, n ≤ 1 ∧
        (env.countStrict = Except.ok n ∨
          (env.countStrict = Except.error () ∧ env.countTolerant = Except.ok n)))) ∨
    ((split_csv_logic env np).busy = [true, false] ∧
      ¬ (env.detectRaises = false ∧ ∃ n, n ≤ 1 ∧
        (env.countStrict = Except.ok n ∨
          (env.countStrict = Except.error () ∧ env.countTolerant = Except.ok n)))) := by
  cases hdet : env.detectRaises with
  | true =>
    right
    constructor
    · rw [run_detect_eq env np hdet]
    · rintro ⟨hfalse, -⟩
      simp at hfalse
  | false =>
    cases hc : env.countStrict with
    | ok n =>
      by_cases hn : n ≤ 1
      · left
        exact ⟨by rw [run_guard_strict_eq env np n hdet hc hn], rfl, n, hn, Or.inl rfl⟩
      · right
        constructor
        · rw [run_count_strict_eq env np n hdet hc]
          exact afterCount_busy_main env np _ _ n (by omega)
        · rintro ⟨-, m, hm, hcase | ⟨hcase, -⟩⟩
          · have hnm : n = m := by injection hcase
            omega
          · exact Except.noConfusion hcase
    | error u =>
      cases u
      cases hct : env.countTolerant with
      | ok n =>
        by_cases hn : n ≤ 1
        · left
          exact ⟨by rw [run_guard_tolerant_eq env np n hdet hc hct hn], rfl, n, hn,
            Or.inr ⟨rfl, rfl⟩⟩
        · right
          constructor
          · rw [run_count_tolerant_eq env np n hdet hc hct]
            exact afterCount_busy_main env np _ _ n (by omega)
          · rintro ⟨-, m, hm, hcase | ⟨-, hcase2⟩⟩
            · exact Except.noConfusion hcase
            · have hnm : n = m := by injection hcase2
              omega
      | error v =>
        cases v
        right
        constructor
        · rw [run_countFail_eq env np hdet hc hct]
        · rintro ⟨-, m, hm, hcase | ⟨-, hcase2⟩⟩
          · exact Except.noConfusion hcase
          · exact Except.noConfusion hcase2

theorem find?_eq_get_of_first (p : String → Bool) :
    ∀ (l : List String) (i : Nat) (hi : i < l.length),
      p (l.get ⟨i, hi⟩) = true →
      (∀ j (hj : j < i), p (l.get ⟨j, Nat.lt_trans hj hi⟩) = false) →
      l.find? p = some (l.get ⟨i, hi⟩) := by
  intro l
  induction l with
  | nil => intro i hi; simp at hi
  | cons a t ih =>
    intro i hi hp hprev
    cases i with
    | zero =>
      exact List.find?_cons_of_pos t hp
    | succ i =>
      have ha : p a = false := hprev 0 (Nat.succ_pos i)
      have hstep : (a :: t).find? p = t.find? p :=
        List.find?_cons_of_neg t (by simp [ha])
      have hget : (a :: t).get ⟨i + 1, hi⟩ = t.get ⟨i, Nat.lt_of_succ_lt_succ hi⟩ := rfl
      rw [hstep, hget]
      refine ih i (Nat.lt_of_succ_lt_succ hi) hp ?_
      intro j hj
      exact hprev (j + 1) (Nat.succ_lt_succ hj)

/-- Claim C2 fails as stated: at `data_rows = 4`, `num_parts = 3` (both
positive) the chunk size of line 66 is `ceil(4/3) = 2`, but
`chunk_size * (num_parts - 1) = 4` is not `< 4`, refuting the claimed
inequality `chunk_size * (num_parts - 1) < data_rows`. -/
theorem C2_counterexample :
    0 < 4 ∧ 0 < 3 ∧ chunkSizeOf 4 3 = 2 ∧ ¬(chunkSizeOf 4 3 * (3 - 1) < 4) := by
  decide

/-- Claim C2 (amended): for all positive `data_rows` and `num_parts`, the
chunk size of line 66 equals `ceil(data_rows / num_parts)` and satisfies
`data_rows ≤ chunk_size * num_parts`; the claimed strict upper bound holds in
the corrected form `(chunk_size - 1) * num_parts < data_rows` (the chunk size
is the least one whose `num_parts` multiple covers `data_rows`), not in the
claimed form `chunk_size * (num_parts - 1) < data_rows`. -/
theorem C2_chunk_size_amended (d n : Nat) (hd : 0 < d) (hn : 0 < n) :
    (chunkSizeOf d n : Int) = ⌈(d : ℚ) / (n : ℚ)⌉ ∧
    d ≤ chunkSizeOf d n * n ∧
    (chunkSizeOf d n - 1) * n < d :=
  ⟨chunkSizeOf_eq_ceil d n hd hn, chunkSizeOf_mul_ge d n hn,
    chunkSizeOf_pred_mul_lt d n hd hn⟩

theorem C2_chunk_size_amended_witness :
    (0 < 5 ∧ 0 < 2) ∧
    ((chunkSizeOf 5 2 : Int) = ⌈((5 : Nat) : ℚ) / ((2 : Nat) : ℚ)⌉ ∧
      5 ≤ chunkSizeOf 5 2 * 2 ∧
      (chunkSizeOf 5 2 - 1) * 2 < 5) :=
  ⟨⟨by decide, by decide⟩, C2_chunk_size_amended 5 2 (by decide) (by decide)⟩

/-- Claim C7: the detector tries the fixed ordered candidate list
`['utf-8-sig', 'gbk', 'gb2312', 'utf-8', 'cp936', 'big5']`, returns the
first candidate whose probe decodes, returns the fixed default `"gbk"` when
every candidate fails (it is a total function, so it never raises), and in
particular when the first four candidates fail and the fifth succeeds it
returns the fifth candidate, `"cp936"`. -/
theorem C7_detect_first_success (decodes : String → Bool) :
    (detect_encoding decodes ∈ encodingsToTry ∨ detect_encoding decodes = "gbk") ∧
    ((∀ e ∈ encodingsToTry, decodes e = false) → detect_encoding decodes = "gbk") ∧
    (∀ i (hi : i < encodingsToTry.length), decodes (encodingsToTry.get ⟨i, hi⟩) = true →
      (∀ j (hj : j < i), decodes (encodingsToTry.get ⟨j, Nat.lt_trans hj hi⟩) = false) →
      detect_encoding decodes = encodingsToTry.get ⟨i, hi⟩) ∧
    (decodes "utf-8-sig" = false → decodes "gbk" = false → decodes "gb2312" = false →
      decodes "utf-8" = false → decodes "cp936" = true →
      detect_encoding decodes = "cp936") := by
  refine ⟨?_, ?_, ?_, ?_⟩
  · unfold detect_encoding
    cases hf : encodingsToTry.find? decodes with
    | some e => exact Or.inl (List.mem_of_find?_eq_some hf)
    | none => exact Or.inr rfl
  · intro hall
    unfold detect_encoding
    have hnone : encodingsToTry.find? decodes = none := by
      rw [List.find?_eq_none]
      intro x hx
      simp [hall x hx]
    rw [hnone]
  · intro i hi hdec hprev
    unfold detect_encoding
    rw [find?_eq_get_of_first decodes encodingsToTry i hi hdec hprev]
  · intro h0 h1 h2 h3 h4
    unfold detect_encoding encodingsToTry
    rw [List.find?_cons_of_neg _ (by simp [h0]), List.find?_cons_of_neg _ (by simp [h1]),
      List.find?_cons_of_neg _ (by simp [h2]), List.find?_cons_of_neg _ (by simp [h3]),
      List.find?_cons_of_pos _ h4]

theorem C7_detect_first_success_witness :
    detect_encoding (fun e => e == "cp936") = "cp936" :=
  (C7_detect_first_success (fun e => e == "cp936")).2.2.2
    (by decide) (by decide) (by decide) (by decide) (by decide)

/-- Claim C10: on the source text `"a\nb",c\n` — a single CSV record whose
quoted field contains an embedded newline — the raw line count is 2, so
`data_rows = 1 > 0` and the guard of line 61 passes, yet `csv.reader` yields
only the (multi-line) header record and no data record; the run writes zero
part files, logs the early-termination 🏁 info event reporting 0 files, and
ends with the 🎉 success event and no error-level event. -/
theorem C10_line_vs_record_mismatch :
    countLines ("\"a\nb\",c\n".data) = 2 ∧
    (parseCsv "\"a\nb\",c\n").length = 1 ∧
    (runOk "data" true decodesAll "\"a\nb\",c\n" 2).writes = [] ∧
    Event.earlyFinish 0 ∈ (runOk "data" true decodesAll "\"a\nb\",c\n" 2).events ∧
    Event.level (Event.earlyFinish 0) = Level.info ∧
    (runOk "data" true decodesAll "\"a\nb\",c\n" 2).events.getLast? = some Event.done ∧
    errCount (runOk "data" true decodesAll "\"a\nb\",c\n" 2).events = 0 := by
  decide

/-- Claim C1: on a source file whose CSV records contain no quoted embedded
newlines (rendered: the raw line count of line 53 equals the number of CSV
records), with `data_rows > 0` and a successful decode, the produced parts
chunk the data records strictly sequentially: concatenating the body rows of
all parts in part-index order reproduces the original data rows in original
order, and part `j` (0-based) is named `{base}_part_{j+1}.csv`, replays the
header, and holds exactly the records from position `j * chunk_size` up to
`(j+1) * chunk_size` of the data rows (so header + 10 rows with
`num_parts = 3` gives chunk 4 and parts of sizes `[4, 4, 2]`; see the
witness). -/
theorem C1_sequential_roundtrip (base : String) (outE : Bool) (dec : String → Bool)
    (text : String) (np : Nat) (hnp : 0 < np)
    (hnl : countLines text.data = (parseCsv text).length)
    (hd : 1 < countLines text.data) :
    (((runOk base outE dec text np).writes.map WriteOp.body).flatten
        = (parseCsv text).drop 1) ∧
    (∀ j (hj : j < (runOk base outE dec text np).writes.length),
      (runOk base outE dec text np).writes.get ⟨j, hj⟩ =
        { name := partName base j, header := (parseCsv text).headI,
          body := (((parseCsv text).drop 1).drop
              (j * chunkSizeOf (countLines text.data - 1) np)).take
            (chunkSizeOf (countLines text.data - 1) np) }) := by
  have hwr : (runOk base outE dec text np).writes =
      (process_splitting base np (chunkSizeOf (countLines text.data - 1) np)
        (parseCsv text)).1 := by
    rw [runOk_eq base outE dec text np hd]
  have hne : parseCsv text ≠ [] :=
    parseCsv_ne_nil text (countLines_pos_ne_nil _ (by omega))
  obtain ⟨hdr, rest, hrec⟩ : ∃ hdr rest, parseCsv text = hdr :: rest := by
    cases hp : parseCsv text with
    | nil => exact absurd hp hne
    | cons h t => exact ⟨h, t, rfl⟩
  have hcspos : 0 < chunkSizeOf (countLines text.data - 1) np :=
    chunkSizeOf_pos _ _ (by omega) hnp
  have hlen : rest.length ≤ np * chunkSizeOf (countLines text.data - 1) np := by
    have h1 : (parseCsv text).length = rest.length + 1 := by rw [hrec]; simp
    have h2 : countLines text.data - 1 ≤ chunkSizeOf (countLines text.data - 1) np * np :=
      chunkSizeOf_mul_ge _ np hnp
    rw [mul_comm] at h2
    generalize hP : np * chunkSizeOf (countLines text.data - 1) np = P at h2 ⊢
    omega
  constructor
  · rw [hwr, hrec]
    simp only [process_splitting]
    exact splitLoop_flatten base np _ hdr hcspos np 0 rest hlen
  · rw [hwr, hrec]
    simp only [process_splitting]
    intro j hj
    rw [splitLoop_get base np _ hdr np 0 rest j hj]
    simp

theorem C1_sequential_roundtrip_witness :
    (((runOk "t" true decodesAll "h\n1\n2\n3\n4\n5\n6\n7\n8\n9\n10\n" 3).writes.map
        WriteOp.body).flatten = (parseCsv "h\n1\n2\n3\n4\n5\n6\n7\n8\n9\n10\n").drop 1) ∧
    ((runOk "t" true decodesAll "h\n1\n2\n3\n4\n5\n6\n7\n8\n9\n10\n" 3).writes.map
        fun w => w.body.length) = [4, 4, 2] ∧
    (runOk "t" true decodesAll "h\n1\n2\n3\n4\n5\n6\n7\n8\n9\n10\n" 3).writes.length = 3 :=
  ⟨(C1_sequential_roundtrip "t" true decodesAll "h\n1\n2\n3\n4\n5\n6\n7\n8\n9\n10\n" 3
      (by decide) (by decide) (by decide)).1,
    by decide, by decide⟩

/-- Claim C3 fails as stated: on the source text `"a",b\nx,y\n` — whose header
line `"a",b` carries quoting that `csv.writer` (QUOTE_MINIMAL) does not
reproduce — the single produced part replays the header as the record
`["a", "b"]`, serialized as `a,b`: not byte-for-byte the source's header row
`"a",b` (re-encoding cannot restore the dropped quotes). -/
theorem C3_counterexample :
    (runOk "s" true decodesAll "\"a\",b\nx,y\n" 1).writes.length = 1 ∧
    ((runOk "s" true decodesAll "\"a\",b\nx,y\n" 1).writes.headI).header = ["a", "b"] ∧
    ((runOk "s" true decodesAll "\"a\",b\nx,y\n" 1).writes.headI).fileContent
      = "a,b\r\nx,y\r\n" ∧
    String.mk (("\"a\",b\nx,y\n".data).takeWhile fun c => c ≠ '\n') = "\"a\",b" ∧
    rowText ((runOk "s" true decodesAll "\"a\",b\nx,y\n" 1).writes.headI).header
      ≠ String.mk (("\"a\",b\nx,y\n".data).takeWhile fun c => c ≠ '\n') := by
  decide

/-- Claim C3 (amended): every produced part's first row is the source header
record replayed field-for-field — the part's stored header equals the first
parsed record of the source, and the part's file content begins with that
record re-serialized by the CSV writer.  Byte-for-byte equality with the raw
source header line holds only up to the writer's re-quoting and `\r\n`
terminator (see the counterexample). -/
theorem C3_header_replay_amended (base : String) (outE : Bool) (dec : String → Bool)
    (text : String) (np : Nat) :
    ∀ w ∈ (runOk base outE dec text np).writes,
      w.header = (parseCsv text).headI ∧
      w.fileContent = writeRow ((parseCsv text).headI)
        ++ String.join (w.body.map writeRow) := by
  intro w hw
  by_cases hL : 1 < countLines text.data
  · have hwr : (runOk base outE dec text np).writes =
        (process_splitting base np (chunkSizeOf (countLines text.data - 1) np)
          (parseCsv text)).1 := by
      rw [runOk_eq base outE dec text np hL]
    rw [hwr] at hw
    have hne : parseCsv text ≠ [] :=
      parseCsv_ne_nil text (countLines_pos_ne_nil _ (by omega))
    obtain ⟨hdr, rest, hrec⟩ : ∃ hdr rest, parseCsv text = hdr :: rest := by
      cases hp : parseCsv text with
      | nil => exact absurd hp hne
      | cons h t => exact ⟨h, t, rfl⟩
    rw [hrec] at hw
    simp only [process_splitting] at hw
    obtain ⟨⟨j, hj⟩, hget⟩ := List.mem_iff_get.mp hw
    rw [splitLoop_get base np _ hdr np 0 rest j hj] at hget
    constructor
    · rw [← hget, hrec]
      simp
    · rw [← hget, hrec]
      simp [WriteOp.fileContent]
  · have hwr0 : (runOk base outE dec text np).writes = [] := by
      show (split_csv_logic (envOfText base outE dec text) np).writes = []
      rw [run_guard_strict_eq (envOfText base outE dec text) np (countLines text.data)
        rfl rfl (by omega)]
    rw [hwr0] at hw
    simp at hw

theorem C3_header_replay_amended_witness :
    ({ name := "s_part_1.csv", header := ["a", "b"], body := [["x", "y"]] } : WriteOp)
        ∈ (runOk "s" true decodesAll "\"a\",b\nx,y\n" 1).writes ∧
    (({ name := "s_part_1.csv", header := ["a", "b"], body := [["x", "y"]] } : WriteOp).header
        = (parseCsv "\"a\",b\nx,y\n").headI ∧
      ({ name := "s_part_1.csv", header := ["a", "b"], body := [["x", "y"]] } :
          WriteOp).fileContent
        = writeRow ((parseCsv "\"a\",b\nx,y\n").headI)
          ++ String.join (([["x", "y"]]).map writeRow)) :=
  ⟨by decide, C3_header_replay_amended "s" true decodesAll "\"a\",b\nx,y\n" 1
    { name := "s_part_1.csv", header := ["a", "b"], body := [["x", "y"]] } (by decide)⟩

/-- Claim C4: in every successful-decode run whose row cursor is exhausted
before `num_parts` chunks have been pulled (the data records fit into the
first `num_parts - 1` chunks), the split loop stops early: strictly fewer
than `num_parts` part files are produced, the 🏁 informational (non-error)
event reports the actual number of parts produced, the 🎉 success event
still fires, and no error-level event occurs in the run. -/
theorem C4_early_stop (base : String) (outE : Bool) (dec : String → Bool) (text : String)
    (np : Nat) (hnp : 0 < np) (hd : 1 < countLines text.data)
    (hex : (parseCsv text).length - 1
        ≤ (np - 1) * chunkSizeOf (countLines text.data - 1) np) :
    (runOk base outE dec text np).writes.length < np ∧
    Event.earlyFinish ((runOk base outE dec text np).writes.length)
      ∈ (runOk base outE dec text np).events ∧
    Event.level (Event.earlyFinish ((runOk base outE dec text np).writes.length))
      = Level.info ∧
    Event.done ∈ (runOk base outE dec text np).events ∧
    ∀ e ∈ (runOk base outE dec text np).events, Event.level e ≠ Level.error := by
  have hne : parseCsv text ≠ [] :=
    parseCsv_ne_nil text (countLines_pos_ne_nil _ (by omega))
  obtain ⟨hdr, rest, hrec⟩ : ∃ hdr rest, parseCsv text = hdr :: rest := by
    cases hp : parseCsv text with
    | nil => exact absurd hp hne
    | cons h t => exact ⟨h, t, rfl⟩
  have hrest : rest.length ≤ (np - 1) * chunkSizeOf (countLines text.data - 1) np := by
    rw [hrec] at hex
    simpa using hex
  have hearly := splitLoop_early base np (chunkSizeOf (countLines text.data - 1) np) hdr
    np 0 rest hnp hrest
  have hrun := runOk_eq base outE dec text np hd
  have hwr : (runOk base outE dec text np).writes =
      (splitLoop base np (chunkSizeOf (countLines text.data - 1) np) hdr 0 np rest).1 := by
    rw [hrun, hrec]
    simp [process_splitting]
  have hev : (runOk base outE dec text np).events =
      [Event.start] ++ (if outE then [] else [Event.mkdir]) ++
        [Event.detecting, Event.detected (detect_encoding dec), Event.counting,
          Event.planInfo ((countLines text.data : Int) - 1) np
            (chunkSizeOf (countLines text.data - 1) np)] ++
        (splitLoop base np (chunkSizeOf (countLines text.data - 1) np) hdr 0 np rest).2 ++
        [Event.done] := by
    rw [hrun, hrec]
    simp [process_splitting]
  have hmem : Event.earlyFinish
      ((splitLoop base np (chunkSizeOf (countLines text.data - 1) np) hdr 0 np rest).1.length)
      ∈ (splitLoop base np (chunkSizeOf (countLines text.data - 1) np) hdr 0 np rest).2 := by
    have h2 := hearly.2
    simpa using h2
  refine ⟨?_, ?_, rfl, ?_, ?_⟩
  · rw [hwr]
    exact hearly.1
  · rw [hwr, hev]
    exact List.mem_append_left _ (List.mem_append_right _ hmem)
  · rw [hev]
    exact List.mem_append_right _ (by simp)
  · intro e he
    rw [hev] at he
    rcases List.mem_append.mp he with h1 | h1
    · rcases List.mem_append.mp h1 with h2 | h2
      · rcases List.mem_append.mp h2 with h3 | h3
        · rcases List.mem_append.mp h3 with h4 | h4
          · simp only [List.mem_singleton] at h4
            subst h4
            simp [Event.level]
          · cases outE with
            | true => simp at h4
            | false =>
              simp only [if_false, Bool.false_eq_true, List.mem_singleton] at h4
              subst h4
              simp [Event.level]
        · simp only [List.mem_cons, List.not_mem_nil, or_false] at h3
          rcases h3 with rfl | rfl | rfl | rfl <;> simp [Event.level]
      · have := splitLoop_events_info base np
          (chunkSizeOf (countLines text.data - 1) np) hdr np 0 rest e h2
        simp [this]
    · simp only [List.mem_singleton] at h1
      subst h1
      simp [Event.level]

theorem C4_early_stop_witness :
    (runOk "t" true decodesAll "h\na\n" 3).writes.length < 3 ∧
    Event.earlyFinish ((runOk "t" true decodesAll "h\na\n" 3).writes.length)
      ∈ (runOk "t" true decodesAll "h\na\n" 3).events ∧
    Event.level (Event.earlyFinish ((runOk "t" true decodesAll "h\na\n" 3).writes.length))
      = Level.info ∧
    Event.done ∈ (runOk "t" true decodesAll "h\na\n" 3).events :=
  have h := C4_early_stop "t" true decodesAll "h\na\n" 3 (by decide) (by decide) (by decide)
  ⟨h.1, h.2.1, h.2.2.1, h.2.2.2.1⟩

/-- Claim C5 fails as stated on the header-only source `h\n` with a missing
output directory: the run aborts with zero part writes and exactly one error
event, but another side effect precedes the abort — the output directory is
created (`os.makedirs`, line 39, logging 📂) before the rows are even
counted. -/
theorem C5_counterexample :
    (runOk "s" false decodesAll "h\n" 3).writes = [] ∧
    errCount (runOk "s" false decodesAll "h\n" 3).events = 1 ∧
    (runOk "s" false decodesAll "h\n" 3).createdDir = true ∧
    Event.mkdir ∈ (runOk "s" false decodesAll "h\n" 3).events := by
  decide

/-- Claim C5 (amended): whenever the counted data rows satisfy
`data_rows <= 0` (total line count at most 1), whether the count came from
the strict or the tolerant pass, the engine aborts before any part write:
zero part files are produced and exactly one error-level event is emitted —
the ❌ empty-data event, which ends the log.  The effects that may precede
the abort are informational/warning log events, the busy-flag calls, and
the creation of the output directory (see the counterexample). -/
theorem C5_empty_abort_amended (env : Env) (np n : Nat)
    (hdet : env.detectRaises = false)
    (hcount : env.countStrict = Except.ok n ∨
      (env.countStrict = Except.error () ∧ env.countTolerant = Except.ok n))
    (hn : n ≤ 1) :
    (split_csv_logic env np).writes = [] ∧
    errCount (split_csv_logic env np).events = 1 ∧
    (split_csv_logic env np).events.getLast? = some Event.emptyDataErr := by
  rcases hcount with hc | ⟨hc, hct⟩
  · rw [run_guard_strict_eq env np n hdet hc hn]
    refine ⟨rfl, ?_, ?_⟩
    · cases houtE : env.outputFolderExists <;>
        simp [errCount, List.filter, Event.level]
    · cases houtE : env.outputFolderExists <;> simp
  · rw [run_guard_tolerant_eq env np n hdet hc hct hn]
    refine ⟨rfl, ?_, ?_⟩
    · cases houtE : env.outputFolderExists <;>
        simp [errCount, List.filter, Event.level]
    · cases houtE : env.outputFolderExists <;> simp

theorem C5_empty_abort_amended_witness :
    (split_csv_logic (envOfText "s" false decodesAll "h\n") 3).writes = [] ∧
    errCount (split_csv_logic (envOfText "s" false decodesAll "h\n") 3).events = 1 ∧
    (split_csv_logic (envOfText "s" false decodesAll "h\n") 3).events.getLast?
      = some Event.emptyDataErr :=
  C5_empty_abort_amended (envOfText "s" false decodesAll "h\n") 3 1 rfl
    (Or.inl rfl) (by decide)

/-- Claim C6 fails as stated: on a header-only source the guard of line 61
calls `progress_callback(False)` (line 63) and returns, and the `finally` of
line 110 calls `progress_callback(False)` again — three busy calls in one
invocation, not two. -/
theorem C6_counterexample :
    (runOk "s" true decodesAll "h\n" 3).busy = [true, false, false] ∧
    (runOk "s" true decodesAll "h\n" 3).busy.length ≠ 2 := by
  decide

/-- Claim C6 (amended): in every invocation the busy callback is first
called with `true` and its last call is `false` (the `finally` of line 110
always runs); it is called exactly three times — `[true, false, false]` —
precisely on the `data_rows <= 0` abort path, where the guard of line 63 and
the `finally` each pass `false`, and exactly twice — `[true, false]` — on
every other path. -/
theorem C6_busy_amended (env : Env) (np : Nat) :
    (split_csv_logic env np).busy.head? = some true ∧
    (split_csv_logic env np).busy.getLast? = some false ∧
    ((split_csv_logic env np).busy = [true, false, false] ↔
      (env.detectRaises = false ∧ ∃ n, n ≤ 1 ∧
        (env.countStrict = Except.ok n ∨
          (env.countStrict = Except.error () ∧ env.countTolerant = Except.ok n)))) ∧
    ((split_csv_logic env np).busy = [true, false] ↔
      ¬ (env.detectRaises = false ∧ ∃ n, n ≤ 1 ∧
        (env.countStrict = Except.ok n ∨
          (env.countStrict = Except.error () ∧ env.countTolerant = Except.ok n)))) := by
  rcases busy_dichotomy env np with ⟨hb, hp⟩ | ⟨hb, hp⟩
  · rw [hb]
    exact ⟨rfl, rfl, iff_of_true rfl hp, iff_of_false (by simp) fun h => h hp⟩
  · rw [hb]
    exact ⟨rfl, rfl, iff_of_false (by simp) hp, iff_of_true rfl hp⟩

/-! Helper counts over the fixed event prefixes. -/

theorem count_warn_pre (b : Bool) (encStr : String) :
    ([Event.start] ++ (if b then [] else [Event.mkdir]) ++
      [Event.detecting, Event.detected encStr, Event.counting,
        Event.countRetryWarn]).count Event.countRetryWarn = 1 := by
  cases b <;> simp [List.count_append, List.count_cons, List.count_nil]

theorem afterCount_planInfo_mem (env : Env) (np : Nat) (pre : List Event) (dm : Bool)
    (n : Nat) (hn : 1 < n) :
    Event.planInfo ((n : Int) - 1) np (chunkSizeOf (n - 1) np)
      ∈ (afterCount env np pre dm n).events := by
  unfold afterCount
  rw [if_neg (by omega : ¬ ((n : Int) - 1 ≤ 0))]
  cases hs : env.splitStrict with
  | ok recs => simp
  | error u =>
    cases ht : env.splitTolerant with
    | ok recs => simp
    | error v => simp

/-- Claim C8: when the strict-encoding pass of a stage raises, that stage
emits a ⚠️ warning event and is retried exactly once from the beginning of
the source in tolerant (`errors='ignore'`) mode.  (a) If the strict line
count of lines 52–53 raises, the ⚠️ of line 56 appears exactly once in the
log and the tolerant count of lines 57–58 drives the rest of the run (its
📋 plan event is emitted).  (b) If the strict split pass of line 101 raises
— whether the total-line count came from the strict count pass or, as in a
deep-bad-byte run, from the tolerant count retry — the ⚠️ of line 103
appears exactly once, and when the tolerant pass of line 104 succeeds, the
run's writes are the strict pass's partial writes followed by a complete
re-run of the split on the tolerantly-decoded records chunked from the very
beginning of the file, part `j` of the retry bearing the same name
`{base}_part_{j+1}.csv` as in the strict attempt — the parts are rewritten,
not resumed partway. -/
theorem C8_tolerant_retry (env : Env) (np : Nat)
    (hdet : env.detectRaises = false)
    (hwfs : ∀ e ∈ env.strictPartialEvents, Event.level e = Level.info)
    (hwft : ∀ e ∈ env.tolerantPartialEvents, Event.level e = Level.info) :
    (env.countStrict = Except.error () →
      Event.level Event.countRetryWarn = Level.warning ∧
      (split_csv_logic env np).events.count Event.countRetryWarn = 1 ∧
      (∀ n, env.countTolerant = Except.ok n → 1 < n →
        Event.planInfo ((n : Int) - 1) np (chunkSizeOf (n - 1) np)
          ∈ (split_csv_logic env np).events)) ∧
    (∀ n, (env.countStrict = Except.ok n ∨
        (env.countStrict = Except.error () ∧ env.countTolerant = Except.ok n)) →
      1 < n → env.splitStrict = Except.error () →
      Event.level Event.splitRetryWarn = Level.warning ∧
      (split_csv_logic env np).events.count Event.splitRetryWarn = 1 ∧
      (∀ recs, env.splitTolerant = Except.ok recs →
        (split_csv_logic env np).writes = env.strictPartialWrites ++
          (process_splitting env.basename np (chunkSizeOf (n - 1) np) recs).1 ∧
        (∀ j (hj : j < (process_splitting env.basename np (chunkSizeOf (n - 1) np)
            recs).1.length),
          ((process_splitting env.basename np (chunkSizeOf (n - 1) np) recs).1.get
            ⟨j, hj⟩).name = partName env.basename j))) := by
  constructor
  · intro hc
    refine ⟨rfl, ?_, ?_⟩
    · cases hct : env.countTolerant with
      | ok m =>
        rw [run_count_tolerant_eq env np m hdet hc hct,
          afterCount_count_countRetryWarn env np _ _ m hwfs hwft]
        exact count_warn_pre env.outputFolderExists (detect_encoding env.decodes)
      | error u =>
        rw [run_countFail_eq env np hdet hc (by cases u; exact hct)]
        cases houtE : env.outputFolderExists <;>
          simp [List.count_append, List.count_cons, List.count_nil]
    · intro n hct hn
      rw [run_count_tolerant_eq env np n hdet hc hct]
      exact afterCount_planInfo_mem env np _ _ n hn
  · intro n hcount hn hs
    have hnames := process_splitting_names env.basename np (chunkSizeOf (n - 1) np)
    rcases hcount with hc | ⟨hc, hct⟩
    · have heq := run_count_strict_eq env np n hdet hc
      have hpre0 : ([Event.start] ++
          (if env.outputFolderExists then [] else [Event.mkdir]) ++
          [Event.detecting, Event.detected (detect_encoding env.decodes),
            Event.counting]).count Event.splitRetryWarn = 0 := by
        cases houtE : env.outputFolderExists <;>
          simp [List.count_append, List.count_cons, List.count_nil]
      have hmain := splitRetry_conclusions env np _ (!env.outputFolderExists) n hn hs
        hwfs hwft hpre0
      refine ⟨rfl, ?_, ?_⟩
      · rw [heq]
        exact hmain.1
      · intro recs ht
        refine ⟨?_, hnames recs⟩
        rw [heq]
        exact hmain.2 recs ht
    · have heq := run_count_tolerant_eq env np n hdet hc hct
      have hpre0 : ([Event.start] ++
          (if env.outputFolderExists then [] else [Event.mkdir]) ++
          [Event.detecting, Event.detected (detect_encoding env.decodes),
            Event.counting, Event.countRetryWarn]).count Event.splitRetryWarn = 0 := by
        cases houtE : env.outputFolderExists <;>
          simp [List.count_append, List.count_cons, List.count_nil]
      have hmain := splitRetry_conclusions env np _ (!env.outputFolderExists) n hn hs
        hwfs hwft hpre0
      refine ⟨rfl, ?_, ?_⟩
      · rw [heq]
        exact hmain.1
      · intro recs ht
        refine ⟨?_, hnames recs⟩
        rw [heq]
        exact hmain.2 recs ht

theorem C8_tolerant_retry_witness :
    Event.level Event.splitRetryWarn = Level.warning ∧
    (split_csv_logic envSplitRetry 3).events.count Event.splitRetryWarn = 1 ∧
    (split_csv_logic envSplitRetry 3).writes = envSplitRetry.strictPartialWrites ++
      (process_splitting envSplitRetry.basename 3 (chunkSizeOf (3 - 1) 3)
        [["h"], ["1"], ["2"]]).1 :=
  have h := (C8_tolerant_retry envSplitRetry 3 rfl (by simp [envSplitRetry])
    (by simp [envSplitRetry])).2 3 (Or.inr ⟨rfl, rfl⟩) (by decide) rfl
  ⟨h.1, h.2.1, (h.2.2 [["h"], ["1"], ["2"]] rfl).1⟩

/-- Claim C9 fails as stated: in the run of `envCountRecover` an exception is
raised inside the pipeline (the strict row-count pass of lines 52–53), yet it
is caught by the inner handler of line 54 — not by the top-level boundary —
and converted into a ⚠️ warning followed by a successful tolerant retry: the
run ends in the 🎉 success event and its log holds zero error-level events,
refuting "every exception raised anywhere in the pipeline ... is converted
into exactly one error status event". -/
theorem C9_counterexample :
    envCountRecover.countStrict = Except.error () ∧
    (errCount (split_csv_logic envCountRecover 3).events = 0 ∧
      Event.countRetryWarn ∈ (split_csv_logic envCountRecover 3).events ∧
      (split_csv_logic envCountRecover 3).events.getLast? = some Event.done) :=
  ⟨rfl, by decide⟩

/-- Claim C9 (amended): every exception that the per-stage tolerant retry
does not absorb funnels to the single top-level handler of lines 108–111 and
becomes exactly one error-level event, the terminal ❌ unexpected-error
message, with the busy flag still cleared by the `finally` of line 110: this
covers a detection failure, both counting passes failing, and both split
passes failing — the latter whether the line count came from the strict
pass or was itself recovered by the tolerant count retry.
`split_csv_logic` is a total function of its environment, so no exception
propagates out of the operation.  Exceptions absorbed by a stage's tolerant
retry yield a warning instead of an error event (see the counterexample). -/
theorem C9_toplevel_boundary_amended (env : Env) (np : Nat)
    (hwfs : ∀ e ∈ env.strictPartialEvents, Event.level e = Level.info)
    (hwft : ∀ e ∈ env.tolerantPartialEvents, Event.level e = Level.info) :
    (env.detectRaises = true →
      errCount (split_csv_logic env np).events = 1 ∧
      (split_csv_logic env np).events.getLast? = some Event.unexpectedErr ∧
      (split_csv_logic env np).busy.getLast? = some false) ∧
    (env.detectRaises = false → env.countStrict = Except.error () →
      env.countTolerant = Except.error () →
      errCount (split_csv_logic env np).events = 1 ∧
      (split_csv_logic env np).events.getLast? = some Event.unexpectedErr ∧
      (split_csv_logic env np).busy.getLast? = some false) ∧
    (∀ n, env.detectRaises = false →
      (env.countStrict = Except.ok n ∨
        (env.countStrict = Except.error () ∧ env.countTolerant = Except.ok n)) →
      1 < n → env.splitStrict = Except.error () → env.splitTolerant = Except.error () →
      errCount (split_csv_logic env np).events = 1 ∧
      (split_csv_logic env np).events.getLast? = some Event.unexpectedErr ∧
      (split_csv_logic env np).busy.getLast? = some false) := by
  refine ⟨?_, ?_, ?_⟩
  · intro hdet
    rw [run_detect_eq env np hdet]
    refine ⟨?_, ?_, rfl⟩
    · cases houtE : env.outputFolderExists <;>
        simp [errCount, List.filter_append, List.filter_cons, List.filter_nil, Event.level]
    · cases houtE : env.outputFolderExists <;> simp
  · intro hdet hc hct
    rw [run_countFail_eq env np hdet hc hct]
    refine ⟨?_, ?_, rfl⟩
    · cases houtE : env.outputFolderExists <;>
        simp [errCount, List.filter_append, List.filter_cons, List.filter_nil, Event.level]
    · cases houtE : env.outputFolderExists <;> simp
  · intro n hdet hcount hn hs ht
    have h1 : errCount env.strictPartialEvents = 0 := errCount_of_info _ hwfs
    have h2 : errCount env.tolerantPartialEvents = 0 := errCount_of_info _ hwft
    rcases hcount with hc | ⟨hc, hct⟩
    · rw [run_count_strict_eq env np n hdet hc,
        afterCount_splitRetry_err env np _ _ n hn hs ht]
      refine ⟨?_, ?_, rfl⟩
      · simp only [errCount_append, h1, h2]
        cases houtE : env.outputFolderExists <;>
          simp [errCount, List.filter_append, List.filter_cons, List.filter_nil, Event.level]
      · rw [List.getLast?_append]
        simp
    · rw [run_count_tolerant_eq env np n hdet hc hct,
        afterCount_splitRetry_err env np _ _ n hn hs ht]
      refine ⟨?_, ?_, rfl⟩
      · simp only [errCount_append, h1, h2]
        cases houtE : env.outputFolderExists <;>
          simp [errCount, List.filter_append, List.filter_cons, List.filter_nil, Event.level]
      · rw [List.getLast?_append]
        simp

theorem C9_toplevel_boundary_amended_witness :
    errCount (split_csv_logic envDetectFail 3).events = 1 ∧
    (split_csv_logic envDetectFail 3).events.getLast? = some Event.unexpectedErr ∧
    (split_csv_logic envDetectFail 3).busy.getLast? = some false :=
  (C9_toplevel_boundary_amended envDetectFail 3 (by simp [envDetectFail])
    (by simp [envDetectFail])).1 rfl
